import Mathlib

/-!
Shallow embedding of the ATS9360 digitizer driver
(`ATS9360_NPT.py` and `ATS9360/DataAcquisition.py`).

Numeric conventions of the source (Python 2):
* `int(x)` on a float truncates toward zero          → `pyInt`
* `round(x)` rounds half away from zero              → `pyRound2`
* `a / b` on two ints is floor division              → `Int.fdiv`
  (`ATS9360_NPT.py` has no `from __future__ import division`)
* `a / b` with a float operand is true division      → `ℚ` division
* `a % b` on ints with a positive modulus            → `Int.emod`
Floating point values are modelled as exact rationals.
-/

/-- Python `int()` applied to a real value: truncation toward zero. -/
def pyInt (q : ℚ) : ℤ :=
  if 0 ≤ q then ⌊q⌋ else ⌈q⌉

/-- Python 2 `round()`: round half away from zero. -/
def pyRound2 (q : ℚ) : ℤ :=
  if 0 ≤ q then ⌊q + 1/2⌋ else ⌈q - 1/2⌉

theorem pyRound2_of_nonneg {q : ℚ} (h : 0 ≤ q) : pyRound2 q = ⌊q + 1/2⌋ :=
  if_pos h

theorem pyInt_of_nonneg {q : ℚ} (h : 0 ≤ q) : pyInt q = ⌊q⌋ :=
  if_pos h

/-- `round()` of a value that is already an integer returns it unchanged. -/
theorem pyRound2_intCast (k : ℤ) : pyRound2 (k : ℚ) = k := by
  unfold pyRound2
  split
  · rw [Int.floor_int_add k (1/2 : ℚ)]
    norm_num
  · rw [show (k : ℚ) - 1/2 = -(1/2) + k by ring, Int.ceil_add_int]
    norm_num

/-!
## Instrument state (`ATS9360_NPT.__init__`, lines 144-160)

The mutable attributes of the `ATS9360_NPT` instrument that the
`do_set_*` methods read and write.
-/

structure ATS where
  samplerate              : ℚ      -- in MS/s
  clock_source            : String
  clock_edge              : String
  trigger_range           : ℚ      -- in V
  trigger_slope           : String
  trigger_level           : ℚ      -- in V
  trigger_delay           : ℚ      -- in ns
  acquired_samples        : ℤ      -- in samples
  acquisition_time        : ℚ      -- in ns
  records_per_buffer      : ℤ
  nb_buffer_allocated     : ℤ
  buffers_per_acquisition : ℤ
  deriving DecidableEq

/-- The initial attribute values set by `__init__` (lines 144-160):
`acquired_samples = 128*80`, `acquisition_time = acquired_samples/1.8`. -/
def initATS : ATS :=
  { samplerate              := 1800
    clock_source            := "external"
    clock_edge              := "rising"
    trigger_range           := 5
    trigger_slope           := "positive"
    trigger_level           := 1/2
    trigger_delay           := 0
    acquired_samples        := 128 * 80
    acquisition_time        := (128 * 80 : ℚ) / (18/10)
    records_per_buffer      := 100
    nb_buffer_allocated     := 4
    buffers_per_acquisition := 200 }

/-!
## Setters of `ATS9360_NPT`

Each Python `do_set_*` method either mutates attributes and returns, or
raises `ValueError`.  A call is modelled as a function
`ATS → Bool × ATS`: the `Bool` is `true` on normal return and `false`
when the method raises, and the `ATS` is the state of the object when
the call finishes — on an exception this is the state as mutated so far,
matching Python attribute-assignment semantics.
-/

/-- `do_set_acquisition_time` (lines 395-430):
```
if acquisition_time > 256./self.samplerate*1e3:
    acquired_samples      = round(self.samplerate*acquisition_time*1e-3)
    self.acquired_samples = int(round(acquired_samples/128)*128)
    self.acquisition_time = self.acquired_samples/self.samplerate*1e3
else:
    raise ValueError(...)
```
(`int` applied to the integer-valued float `round(...)*128` is exact,
so it is modelled by the integer `pyRound2 (...) * 128` directly). -/
def do_set_acquisition_time (acquisition_time : ℚ) (s : ATS) : Bool × ATS :=
  if 256 / s.samplerate * 1000 < acquisition_time then
    let raw : ℤ := pyRound2 (s.samplerate * acquisition_time * (1/1000))
    let acq : ℤ := pyRound2 ((raw : ℚ) / 128) * 128
    (true, { s with acquired_samples := acq
                    acquisition_time := (acq : ℚ) / s.samplerate * 1000 })
  else
    (false, s)

/-- `do_set_averaging` (lines 448-463):
```
if int(number_of_averaging)%100:
    raise ValueError(...)
self.buffers_per_acquisition = int(number_of_averaging)/self.records_per_buffer
```
The division is Python 2 integer floor division (`Int.fdiv`). -/
def do_set_averaging (number_of_averaging : ℤ) (s : ATS) : Bool × ATS :=
  if number_of_averaging % 100 ≠ 0 then
    (false, s)
  else
    (true, { s with buffers_per_acquisition :=
                      Int.fdiv number_of_averaging s.records_per_buffer })

/-- `do_set_trigger_level` (lines 521-542):
accepted iff `trigger_level < self.trigger_range and
trigger_level > -self.trigger_range`. -/
def do_set_trigger_level (trigger_level : ℚ) (s : ATS) : Bool × ATS :=
  if trigger_level < s.trigger_range ∧ trigger_level > -s.trigger_range then
    (true, { s with trigger_level := trigger_level })
  else
    (false, s)

/-- `do_set_trigger_range` (lines 561-578):
accepted iff `trigger_range > self.trigger_level`. -/
def do_set_trigger_range (trigger_range : ℚ) (s : ATS) : Bool × ATS :=
  if trigger_range > s.trigger_level then
    (true, { s with trigger_range := trigger_range })
  else
    (false, s)

/-- The keys of the `allow_samplerates` dictionary (lines 100-122),
the internal-clock sample rates the board accepts, in MS/s. -/
def allow_samplerates_keys : List ℚ :=
  [1/1000, 2/1000, 5/1000, 10/1000, 20/1000, 50/1000, 100/1000, 200/1000,
   500/1000, 1, 2, 5, 10, 20, 50, 100, 200, 500, 800, 1000, 1200, 1500, 1800]

/-- `do_set_samplerate` (lines 676-728).  On an accepted rate the method
sets `self.samplerate = float(samplerate)` and then calls
`self.set_acquisition_time(self.acquired_samples/self.samplerate*1e3)`;
the parameter-framework wrapper `set_acquisition_time` forwards to
`do_set_acquisition_time`, and an exception raised there propagates with
`self.samplerate` already updated. -/
def do_set_samplerate (samplerate : ℚ) (s : ATS) : Bool × ATS :=
  if s.clock_source = "internal" then
    if samplerate ∈ allow_samplerates_keys then
      let s1 := { s with samplerate := samplerate }
      do_set_acquisition_time ((s1.acquired_samples : ℚ) / s1.samplerate * 1000) s1
    else
      (false, s)
  else if s.clock_source = "external" then
    if 300 ≤ samplerate ∧ samplerate ≤ 1800 then
      let s1 := { s with samplerate := samplerate }
      do_set_acquisition_time ((s1.acquired_samples : ℚ) / s1.samplerate * 1000) s1
    else
      (false, s)
  else
    (false, s)

/-!
## Lifecycle coordinator (`measurement_close`, lines 346-381)

The coordinator sets `measuring = False` and then spins:
```
while not self.parameters['safe_acquisition'] and not all(self.parameters['safe_treatment']):
    pass
```
after which it closes the treatment queues and terminates the three
worker processes.  `safe_treatment` is the two-element list
`[st0, st1]`, so `all(...)` is `st0 && st1`.
-/

/-- The condition under which the `measurement_close` spin loop keeps
polling (the loop body is `pass`, so the loop exits exactly when this
becomes `false`, and the queue closes / `terminate()` calls follow
immediately). -/
def close_wait_continue (safe_acquisition st0 st1 : Bool) : Bool :=
  (!safe_acquisition) && (!(st0 && st1))

/-!
## `DataAcquisition` (the acquisition process)
-/

/-- Trigger level code (lines 128-129):
`int(round(128. + 127.*trigger_level/trigger_range))`.
`round` is Python 2 half-away-from-zero; `int` of the resulting
integer-valued float is exact. -/
def trigger_level_code (trigger_level trigger_range : ℚ) : ℤ :=
  pyRound2 (128 + 127 * trigger_level / trigger_range)

/-- Trigger delay code (lines 110, 112, 150):
`trigger_delay = parameters['trigger_delay']*1e-9`,
`samplerate = parameters['samplerate']*1e6`,
`trigger_delay_code = int(trigger_delay * samplerate + 0.5)`.
Inputs are the raw user values: delay in ns, samplerate in MS/s. -/
def trigger_delay_code (trigger_delay_ns samplerate_MSps : ℚ) : ℤ :=
  pyInt (trigger_delay_ns * (1/1000000000) * (samplerate_MSps * 1000000) + 1/2)

/-- The rounding spelled out by the specification for the delay code:
`round(delay_seconds × sampleRate_Hz + 0.5)`, with `round` the Python 2
half-away-from-zero rounding used everywhere else in this driver. -/
def spec_trigger_delay_code (trigger_delay_ns samplerate_MSps : ℚ) : ℤ :=
  pyRound2 (trigger_delay_ns * (1/1000000000) * (samplerate_MSps * 1000000) + 1/2)

/-- The device calls of the configuration phase of `get_data`
(`set_clock`, `set_input_control`, `set_trigger`; the call arguments are
not relevant to where a configuration error interrupts the sequence and
are omitted). -/
inductive BoardCall where
  | setCaptureClock
  | inputControlA
  | inputControlB
  | setTriggerOperation
  | setExternalTrigger
  | setTriggerDelay
  | setTriggerTimeOut
  | configureAuxOutput
  deriving DecidableEq, Repr

/-- The parameters dictionary entries read by the configuration phase. -/
structure AcqParams where
  clock_source  : String
  clock_edge    : String
  samplerate    : ℚ
  trigger_slope : String
  trigger_range : ℚ
  trigger_level : ℚ
  trigger_delay : ℚ
  deriving DecidableEq

/-- `set_clock` (lines 33-75), as the trace of board calls it makes and
whether it returns normally.  Under the internal clock the dictionary
lookup `allow_samplerates[samplerate]` runs before `setCaptureClock`; a
bad clock source raises before any call; the lookup
`allow_clock_edges[clock_edge]` is evaluated among the arguments of
`setCaptureClock`, hence also before the call is issued.  Under the
external clock the samplerate is used as `samplerate*1e6` with no
validity check. -/
def set_clock_calls (p : AcqParams) : List BoardCall × Bool :=
  if p.clock_source = "internal" then
    if p.samplerate ∈ allow_samplerates_keys then
      if p.clock_edge ∈ ["rising", "falling"] then
        ([.setCaptureClock], true)
      else ([], false)
    else ([], false)
  else if p.clock_source = "external" then
    if p.clock_edge ∈ ["rising", "falling"] then
      ([.setCaptureClock], true)
    else ([], false)
  else
    ([], false)

/-- `set_input_control` (lines 79-96): two unconditional board calls. -/
def set_input_control_calls : List BoardCall :=
  [.inputControlA, .inputControlB]

/-- `set_trigger` (lines 100-160), as the trace of board calls.  The
first failure opportunity is the trigger level code computation
`int(round(128. + 127.*trigger_level/trigger_range))` at lines
128-129, which raises `ZeroDivisionError` when `trigger_range == 0`,
before anything else; then the lookup
`allow_trigger_slopes[trigger_slope]` is evaluated among the arguments
of `setTriggerOperation` (before that call); then the lookup
`allow_trigger_ranges[trigger_range]` is evaluated among the arguments
of `setExternalTrigger`, i.e. only after `setTriggerOperation` has been
issued.  The keys of `allow_trigger_ranges` are `{5, 2.5, 1}`
(lines 133-135). -/
def set_trigger_calls (p : AcqParams) : List BoardCall × Bool :=
  if p.trigger_range = 0 then ([], false)
  else if p.trigger_slope ∈ ["positive", "negative"] then
    if p.trigger_range ∈ ([5, 5/2, 1] : List ℚ) then
      ([.setTriggerOperation, .setExternalTrigger, .setTriggerDelay,
        .setTriggerTimeOut, .configureAuxOutput], true)
    else ([.setTriggerOperation], false)
  else ([], false)

/-- The configuration phase of `get_data` (lines 316-328): `set_clock`,
then `set_input_control`, then `set_trigger`, each aborting the
sequence when it raises.  Returns the board calls issued up to the
error (or up to the end of `set_trigger`) and whether the phase
completed. -/
def config_phase (p : AcqParams) : List BoardCall × Bool :=
  let c1 := set_clock_calls p
  if c1.2 = false then (c1.1, false)
  else
    let c3 := set_trigger_calls p
    (c1.1 ++ set_input_control_calls ++ c3.1, c3.2)

/-- The per-buffer pushes of `data_acquisition` (lines 263-264):
`queue_data_cha.put(np.copy(buff.buffer[0::2]))` — every second element
starting at index 0. -/
def cha_push {α : Type} : List α → List α
  | [] => []
  | [a] => [a]
  | a :: _ :: rest => a :: cha_push rest

/-- `queue_data_chb.put(np.copy(buff.buffer[1::2]))` — every second
element starting at index 1, i.e. the stride-two slice of the tail. -/
def chb_push {α : Type} (buff : List α) : List α :=
  cha_push (buff.drop 1)

/-- An interleaved two-channel payload `[a0, b0, a1, b1, ...]` built
from its per-record sample pairs. -/
def interleave {α : Type} : List (α × α) → List α
  | [] => []
  | p :: ps => p.1 :: p.2 :: interleave ps

/-!
## Post-loop statistics of `data_acquisition` (lines 276-293)

```
buffersPerSec      = 0
bytesPerSec        = 0
recordsPerSec      = 0
samplesTransferred = samplesPerRecord*recordsPerBuffer*buffersCompleted*2
if transferTime_sec > 0:
    buffersPerSec = buffersCompleted / transferTime_sec
    bytesPerSec   = bytesTransferred / transferTime_sec
    recordsPerSec = recordsPerBuffer * buffersCompleted / transferTime_sec
    samplePerSec  = samplesTransferred / transferTime_sec
```
The local variable `samplePerSec` has no initialisation outside the
guard, unlike its three siblings; its value is therefore modelled as an
`Option`, `none` meaning the name is unbound (reading it raises
`NameError` in Python).  The message then interpolates all four rates.
-/

def samplesTransferred (samplesPerRecord recordsPerBuffer buffersCompleted : ℤ) : ℤ :=
  samplesPerRecord * recordsPerBuffer * buffersCompleted * 2

def stats_buffersPerSec (transferTime_sec : ℚ) (buffersCompleted : ℤ) : ℚ :=
  if 0 < transferTime_sec then (buffersCompleted : ℚ) / transferTime_sec else 0

def stats_bytesPerSec (transferTime_sec : ℚ) (bytesTransferred : ℤ) : ℚ :=
  if 0 < transferTime_sec then (bytesTransferred : ℚ) / transferTime_sec else 0

def stats_recordsPerSec (transferTime_sec : ℚ) (recordsPerBuffer buffersCompleted : ℤ) : ℚ :=
  if 0 < transferTime_sec then (recordsPerBuffer * buffersCompleted : ℚ) / transferTime_sec
  else 0

def stats_samplePerSec (transferTime_sec : ℚ) (samples : ℤ) : Option ℚ :=
  if 0 < transferTime_sec then some ((samples : ℚ) / transferTime_sec) else none

/-- The statistics message (lines 288-293) interpolates
`buffersPerSec`, `recordsPerSec`, `bytesPerSec` and `samplePerSec`; it
can be built — and then stored in `parameters['message']` — exactly
when `samplePerSec` is bound. -/
def message_buildable (transferTime_sec : ℚ) (samples : ℤ) : Bool :=
  (stats_samplePerSec transferTime_sec samples).isSome

/-- Concrete instrument state reachable from `initATS`: a trigger level
of `-3` V is accepted under the initial `5` V trigger range. -/
def negLevelATS : ATS := { initATS with trigger_level := -3 }

/-- Concrete instrument state reachable from `initATS`:
`do_set_acquisition_time 150` at 1800 MS/s stores
`acquired_samples = 256` (see `do_set_acquisition_time`). -/
def smallSamplesATS : ATS :=
  { initATS with acquired_samples := 256
                 acquisition_time := (256 : ℚ) / 1800 * 1000 }

/-- Parameters dictionary with a trigger range outside `{5, 2.5, 1}`
and every other entry legal. -/
def badRangeParams : AcqParams :=
  { clock_source  := "external"
    clock_edge    := "rising"
    samplerate    := 1800
    trigger_slope := "positive"
    trigger_range := 3
    trigger_level := 1/2
    trigger_delay := 0 }

/-- The trigger invariant the driver is supposed to maintain:
the level lies strictly inside the range. -/
def trigInv (s : ATS) : Prop :=
  -s.trigger_range < s.trigger_level ∧ s.trigger_level < s.trigger_range

/-- Every internal-clock samplerate key is positive. -/
lemma allow_samplerates_keys_pos : ∀ r ∈ allow_samplerates_keys, 0 < r := by
  intro r hr
  fin_cases hr <;> norm_num

/-- A stride-two slice starting at the head: head, then the stride-two
slice of the list with the next element dropped. -/
lemma cha_push_cons {α : Type} (b : α) (l : List α) :
    cha_push (b :: l) = b :: cha_push (l.drop 1) := by
  cases l <;> rfl

/-- `do_set_acquisition_time` never touches the fields other than
`acquired_samples` and `acquisition_time`. -/
lemma do_set_acquisition_time_untouched (t : ℚ) (s : ATS) :
    (do_set_acquisition_time t s).2.samplerate = s.samplerate ∧
    (do_set_acquisition_time t s).2.clock_source = s.clock_source ∧
    (do_set_acquisition_time t s).2.clock_edge = s.clock_edge ∧
    (do_set_acquisition_time t s).2.trigger_range = s.trigger_range ∧
    (do_set_acquisition_time t s).2.trigger_slope = s.trigger_slope ∧
    (do_set_acquisition_time t s).2.trigger_level = s.trigger_level ∧
    (do_set_acquisition_time t s).2.trigger_delay = s.trigger_delay ∧
    (do_set_acquisition_time t s).2.records_per_buffer = s.records_per_buffer ∧
    (do_set_acquisition_time t s).2.nb_buffer_allocated = s.nb_buffer_allocated ∧
    (do_set_acquisition_time t s).2.buffers_per_acquisition = s.buffers_per_acquisition := by
  unfold do_set_acquisition_time
  split <;> simp

/-- On the raising branch `do_set_acquisition_time` leaves the state
untouched. -/
lemma do_set_acquisition_time_false_eq (t : ℚ) (s : ATS)
    (h : (do_set_acquisition_time t s).1 = false) :
    (do_set_acquisition_time t s).2 = s := by
  by_cases hc : 256 / s.samplerate * 1000 < t
  · rw [do_set_acquisition_time, if_pos hc] at h
    simp at h
  · rw [do_set_acquisition_time, if_neg hc]

/-- On the accepting branch, the stored sample count follows the
`round(round(samplerate*time*1e-3)/128)*128` formula. -/
lemma do_set_acquisition_time_true_acq (t : ℚ) (s : ATS)
    (h : (do_set_acquisition_time t s).1 = true) :
    (do_set_acquisition_time t s).2.acquired_samples =
      pyRound2 ((pyRound2 (s.samplerate * t * (1/1000)) : ℚ) / 128) * 128 := by
  by_cases hc : 256 / s.samplerate * 1000 < t
  · rw [do_set_acquisition_time, if_pos hc]
  · rw [do_set_acquisition_time, if_neg hc] at h
    simp at h

/-- On the accepting branch, the stored acquisition time is recomputed
from the stored sample count and the samplerate. -/
lemma do_set_acquisition_time_true_time (t : ℚ) (s : ATS)
    (h : (do_set_acquisition_time t s).1 = true) :
    (do_set_acquisition_time t s).2.acquisition_time =
      ((do_set_acquisition_time t s).2.acquired_samples : ℚ) / s.samplerate * 1000 := by
  by_cases hc : 256 / s.samplerate * 1000 < t
  · rw [do_set_acquisition_time, if_pos hc]
  · rw [do_set_acquisition_time, if_neg hc] at h
    simp at h

/-- `do_set_acquisition_time` accepts exactly above the
`256/samplerate*1e3` threshold. -/
lemma do_set_acquisition_time_true_iff (t : ℚ) (s : ATS) :
    (do_set_acquisition_time t s).1 = true ↔ 256 / s.samplerate * 1000 < t := by
  unfold do_set_acquisition_time
  split <;> simp_all

/-- C1: the claim states that `measurement_close` keeps busy-polling
until `safe_acquisition`, `safe_treatment[0]` and `safe_treatment[1]`
are all true, and closes the queues / terminates the workers only then.
Counterexample: with `safe_acquisition = True` and both treatment flags
still `False`, the loop condition
`not safe_acquisition and not all(safe_treatment)` is already `False`,
so the loop exits — and the teardown runs — although not all three
flags are true. -/
theorem close_wait_exits_without_treatment_done :
    close_wait_continue true false false = false ∧
    ¬ (true = true ∧ false = true ∧ false = true) := by
  decide

/-- C1 (amended): the spin loop of `measurement_close` exits — and the
queue closes and `terminate()` calls follow — exactly when
`safe_acquisition` is true OR both `safe_treatment` flags are true,
not only when all three are. -/
theorem close_wait_exit_iff :
    ∀ safe_acquisition st0 st1 : Bool,
      close_wait_continue safe_acquisition st0 st1 = false ↔
        (safe_acquisition = true ∨ (st0 = true ∧ st1 = true)) := by
  decide

/-- C2: the claim states that all four throughput rates are defined
even for a run whose measured elapsed transfer time is zero, so the
statistics message can always be built and published.  In the code
`buffersPerSec`, `bytesPerSec` and `recordsPerSec` are pre-initialised
to `0` but `samplePerSec` is assigned only inside
`if transferTime_sec > 0:`; at zero elapsed time the name is unbound
(`none` here — a `NameError` in Python) and the message interpolating
it cannot be built, while the three initialised rates evaluate to `0`.
With positive elapsed time the message is buildable. -/
theorem samplePerSec_undefined_at_zero_elapsed :
    stats_samplePerSec 0 (samplesTransferred 10240 100 0) = none ∧
    message_buildable 0 (samplesTransferred 10240 100 0) = false ∧
    stats_buffersPerSec 0 0 = 0 ∧
    stats_bytesPerSec 0 0 = 0 ∧
    stats_recordsPerSec 0 100 0 = 0 ∧
    message_buildable 1 (samplesTransferred 10240 100 5) = true := by
  norm_num [stats_samplePerSec, message_buildable, stats_buffersPerSec,
            stats_bytesPerSec, stats_recordsPerSec, samplesTransferred]

/-- C9: for a completed buffer holding the interleaved payload
`[a0, b0, a1, b1, ...]`, the acquisition loop pushes exactly the
even-indexed elements `[a0, a1, ...]` onto channel A's queue
(`buff.buffer[0::2]`) and exactly the odd-indexed elements
`[b0, b1, ...]` onto channel B's queue (`buff.buffer[1::2]`), in
order. -/
theorem deinterleave_even_odd {α : Type} :
    ∀ pairs : List (α × α),
      cha_push (interleave pairs) = pairs.map Prod.fst ∧
      chb_push (interleave pairs) = pairs.map Prod.snd := by
  intro pairs
  induction pairs with
  | nil => exact ⟨rfl, rfl⟩
  | cons p ps ih =>
    constructor
    · show cha_push (p.1 :: p.2 :: interleave ps) = p.1 :: ps.map Prod.fst
      rw [cha_push_cons, List.drop_one, List.tail_cons, ih.1]
    · show cha_push ((p.1 :: p.2 :: interleave ps).drop 1) = p.2 :: ps.map Prod.snd
      rw [List.drop_one, List.tail_cons, cha_push_cons]
      exact congrArg (p.2 :: ·) ih.2

/-- C3: the claim states that every invalid configuration raises before
any Board device call in `get_data`'s configuration phase, so the device
is never partially programmed.  Counterexample: with a valid clock and
trigger slope but trigger range `3 ∉ {5, 2.5, 1}`, the `KeyError` from
`allow_trigger_ranges[trigger_range]` occurs only after
`setCaptureClock`, both `inputControl` calls and `setTriggerOperation`
have already programmed the device. -/
theorem config_error_after_device_calls :
    (config_phase badRangeParams).2 = false ∧
    (config_phase badRangeParams).1 =
      [.setCaptureClock, .inputControlA, .inputControlB, .setTriggerOperation] := by
  have hne : ("external" : String) ≠ "internal" := by decide
  norm_num [config_phase, set_clock_calls, set_trigger_calls,
            set_input_control_calls, badRangeParams, hne]

/-- C3 (amended): an invalid clock source, or an internal-clock
samplerate outside the table, raises before any Board device call; but
a trigger range of exactly 0 raises (`ZeroDivisionError` in the level
code computation) after the clock and the two input device calls and
before any trigger device call, an invalid trigger slope raises at the
same point, a nonzero trigger range outside `{5, 2.5, 1}` raises only
after those and the `setTriggerOperation` call — the device can be
partially programmed — and an external-clock samplerate is not
validated in this phase at all (the phase completes for any rate). -/
theorem config_phase_error_placement :
    ∀ p : AcqParams,
      (p.clock_source ≠ "internal" → p.clock_source ≠ "external" →
        config_phase p = ([], false)) ∧
      (p.clock_source = "internal" → p.samplerate ∉ allow_samplerates_keys →
        config_phase p = ([], false)) ∧
      ((set_clock_calls p).2 = true → p.trigger_range = 0 →
        config_phase p = ([.setCaptureClock, .inputControlA, .inputControlB], false)) ∧
      ((set_clock_calls p).2 = true → p.trigger_slope ∉ ["positive", "negative"] →
        config_phase p = ([.setCaptureClock, .inputControlA, .inputControlB], false)) ∧
      ((set_clock_calls p).2 = true → p.trigger_slope ∈ ["positive", "negative"] →
        p.trigger_range ∉ ([5, 5/2, 1] : List ℚ) → p.trigger_range ≠ 0 →
        config_phase p =
          ([.setCaptureClock, .inputControlA, .inputControlB, .setTriggerOperation], false)) ∧
      (p.clock_source = "external" → p.clock_edge ∈ ["rising", "falling"] →
        p.trigger_slope ∈ ["positive", "negative"] →
        p.trigger_range ∈ ([5, 5/2, 1] : List ℚ) →
        (config_phase p).2 = true) := by
  intro p
  have hclock : (set_clock_calls p).2 = true → (set_clock_calls p).1 = [.setCaptureClock] := by
    unfold set_clock_calls
    split_ifs <;> simp
  refine ⟨?_, ?_, ?_, ?_, ?_, ?_⟩
  · intro h1 h2
    simp [config_phase, set_clock_calls, h1, h2]
  · intro h1 h2
    simp [config_phase, set_clock_calls, h1, h2]
  · intro h1 hz
    have := hclock h1
    simp [config_phase, h1, this, set_trigger_calls, hz, set_input_control_calls]
  · intro h1 h2
    have := hclock h1
    by_cases hz : p.trigger_range = 0
    · simp [config_phase, h1, this, set_trigger_calls, hz, set_input_control_calls]
    · simp [config_phase, h1, this, set_trigger_calls, hz, h2, set_input_control_calls]
  · intro h1 h2 h3 hz
    have := hclock h1
    simp [config_phase, h1, this, set_trigger_calls, hz, h2, h3, set_input_control_calls]
  · intro h1 h2 h3 h4
    have hz : p.trigger_range ≠ 0 := by
      intro h0
      rw [h0] at h4
      norm_num at h4
    have hc : (set_clock_calls p).2 = true := by
      simp [set_clock_calls, h1, h2]
    simp [config_phase, hc, set_trigger_calls, hz, h3, h4]

/-- C3 (witness): the amended theorem applied to `badRangeParams`,
whose clock phase succeeds, slope is valid and range is `3` (nonzero,
outside the allowed set). -/
theorem config_phase_error_placement_witness :
    (set_clock_calls badRangeParams).2 = true ∧
    config_phase badRangeParams =
      ([.setCaptureClock, .inputControlA, .inputControlB, .setTriggerOperation], false) :=
  ⟨by
     have hne : ("external" : String) ≠ "internal" := by decide
     norm_num [set_clock_calls, badRangeParams, hne],
   (config_phase_error_placement badRangeParams).2.2.2.2.1
     (by
       have hne : ("external" : String) ≠ "internal" := by decide
       norm_num [set_clock_calls, badRangeParams, hne])
     (by norm_num [badRangeParams])
     (by norm_num [badRangeParams])
     (by norm_num [badRangeParams])⟩

/-- C4: the claim states that `set_trigger` programs the delay code
`round(delay_seconds × sampleRate_Hz + 0.5)`.  Counterexample: for a
trigger delay of 1000 ns at 1 MS/s the product is exactly 1 sample, the
code's `int(1 + 0.5)` truncates to `1`, while the claimed
`round(1 + 0.5)` gives `2`. -/
theorem trigger_delay_code_not_round_of_shifted :
    trigger_delay_code 1000 1 = 1 ∧ spec_trigger_delay_code 1000 1 = 2 := by
  norm_num [trigger_delay_code, spec_trigger_delay_code, pyInt, pyRound2]

/-- C4 (amended): for every non-negative delay (ns) and samplerate
(MS/s), `set_trigger` programs the delay code
`int(delay_seconds × sampleRate_Hz + 0.5)` — the floor
`⌊x + 1/2⌋` of the shifted product, i.e. the half-up rounding
`round x` of the product itself — not `round(x + 0.5)`. -/
theorem trigger_delay_code_eq_round :
    ∀ trigger_delay_ns samplerate_MSps : ℚ,
      0 ≤ trigger_delay_ns → 0 ≤ samplerate_MSps →
      trigger_delay_code trigger_delay_ns samplerate_MSps =
        ⌊trigger_delay_ns * (1/1000000000) * (samplerate_MSps * 1000000) + 1/2⌋ ∧
      trigger_delay_code trigger_delay_ns samplerate_MSps =
        round (trigger_delay_ns * (1/1000000000) * (samplerate_MSps * 1000000)) := by
  intro d r hd hr
  have hx : 0 ≤ d * (1/1000000000) * (r * 1000000) := by positivity
  have h1 : trigger_delay_code d r =
      ⌊d * (1/1000000000) * (r * 1000000) + 1/2⌋ := by
    unfold trigger_delay_code
    rw [pyInt_of_nonneg (by linarith)]
  exact ⟨h1, by rw [h1, round_eq]⟩

/-- C4 (witness): the amended theorem at delay 1000 ns, rate 1 MS/s. -/
theorem trigger_delay_code_eq_round_witness :
    (0 : ℚ) ≤ 1000 ∧ (0 : ℚ) ≤ 1 ∧
    trigger_delay_code 1000 1 =
      round ((1000 : ℚ) * (1/1000000000) * (1 * 1000000)) :=
  ⟨by norm_num, by norm_num,
   (trigger_delay_code_eq_round 1000 1 (by norm_num) (by norm_num)).2⟩

/-- C5: the claim states that from any state satisfying
`-trigger_range < trigger_level < trigger_range`, both trigger setters
either raise (state unchanged) or re-establish that invariant.
Counterexample: from the reachable state with range 5 and level `-3`
(which satisfies the invariant), `do_set_trigger_range 1` is accepted —
the only check is `trigger_range > self.trigger_level`, i.e. `1 > -3` —
and the resulting state has level `-3` outside `±1`. -/
theorem set_trigger_range_breaks_invariant :
    trigInv negLevelATS ∧
    (do_set_trigger_range 1 negLevelATS).1 = true ∧
    ¬ trigInv (do_set_trigger_range 1 negLevelATS).2 := by
  norm_num [trigInv, do_set_trigger_range, negLevelATS, initATS]

/-- C5 (amended): from any state satisfying the invariant,
`do_set_trigger_level` either raises leaving the state unchanged or
re-establishes the invariant; `do_set_trigger_range` either raises
leaving the state unchanged (iff the new range does not exceed the
current level) or yields a state satisfying only the upper half
`trigger_level < trigger_range` — the lower bound can be violated when
the level is negative.  Setting range 1 while the level is 2 is
rejected; from the initial state, setting level 0.5 and then range 1 is
accepted and satisfies the invariant. -/
theorem trigger_setters_invariant_weak :
    ∀ (s : ATS) (v : ℚ), trigInv s →
      ((do_set_trigger_level v s).1 = false → (do_set_trigger_level v s).2 = s) ∧
      ((do_set_trigger_level v s).1 = true → trigInv (do_set_trigger_level v s).2) ∧
      ((do_set_trigger_range v s).1 = false ↔ v ≤ s.trigger_level) ∧
      ((do_set_trigger_range v s).1 = false → (do_set_trigger_range v s).2 = s) ∧
      ((do_set_trigger_range v s).1 = true →
        (do_set_trigger_range v s).2.trigger_level <
          (do_set_trigger_range v s).2.trigger_range) ∧
      (s.trigger_level = 2 → (do_set_trigger_range 1 s).1 = false) ∧
      ((do_set_trigger_level (1/2) initATS).1 = true ∧
       (do_set_trigger_range 1 (do_set_trigger_level (1/2) initATS).2).1 = true ∧
       trigInv (do_set_trigger_range 1 (do_set_trigger_level (1/2) initATS).2).2) := by
  intro s v hinv
  refine ⟨?_, ?_, ?_, ?_, ?_, ?_, ?_⟩
  · intro h
    by_cases hc : v < s.trigger_range ∧ v > -s.trigger_range
    · rw [do_set_trigger_level, if_pos hc] at h
      simp at h
    · rw [do_set_trigger_level, if_neg hc]
  · intro h
    by_cases hc : v < s.trigger_range ∧ v > -s.trigger_range
    · rw [do_set_trigger_level, if_pos hc]
      exact ⟨hc.2, hc.1⟩
    · rw [do_set_trigger_level, if_neg hc] at h
      simp at h
  · by_cases hc : v > s.trigger_level
    · rw [do_set_trigger_range, if_pos hc]
      simp
      linarith
    · rw [do_set_trigger_range, if_neg hc]
      simp
      linarith
  · intro h
    by_cases hc : v > s.trigger_level
    · rw [do_set_trigger_range, if_pos hc] at h
      simp at h
    · rw [do_set_trigger_range, if_neg hc]
  · intro h
    by_cases hc : v > s.trigger_level
    · rw [do_set_trigger_range, if_pos hc]
      exact hc
    · rw [do_set_trigger_range, if_neg hc] at h
      simp at h
  · intro h
    rw [do_set_trigger_range, if_neg (by rw [h]; norm_num)]
  · norm_num [do_set_trigger_level, do_set_trigger_range, trigInv, initATS]

/-- C5 (witness): the amended theorem at the initial state with a new
level of 1 V. -/
theorem trigger_setters_invariant_weak_witness :
    trigInv initATS ∧
    ((do_set_trigger_level 1 initATS).1 = true → trigInv (do_set_trigger_level 1 initATS).2) :=
  ⟨by norm_num [trigInv, initATS],
   (trigger_setters_invariant_weak initATS 1 (by norm_num [trigInv, initATS])).2.1⟩

/-- C6: `do_set_averaging n` raises exactly when `n` is not a multiple
of 100 (the state is then unchanged); otherwise it stores
`n / records_per_buffer` (Python 2 floor division) into
`buffers_per_acquisition`, and with the driver's fixed
`records_per_buffer = 100` this quotient is exact — an integer whose
product with 100 recovers `n`. -/
theorem do_set_averaging_spec :
    ∀ (n : ℤ) (s : ATS),
      ((do_set_averaging n s).1 = false ↔ ¬ (100 ∣ n)) ∧
      ((do_set_averaging n s).1 = false → (do_set_averaging n s).2 = s) ∧
      (100 ∣ n → (do_set_averaging n s).2 =
        { s with buffers_per_acquisition := Int.fdiv n s.records_per_buffer }) ∧
      (100 ∣ n → s.records_per_buffer = 100 →
        (do_set_averaging n s).2.buffers_per_acquisition * 100 = n) := by
  intro n s
  have hmod : n % 100 = 0 ↔ 100 ∣ n := by omega
  by_cases h : n % 100 = 0
  · have hd : 100 ∣ n := hmod.mp h
    have hrun : do_set_averaging n s =
        (true, { s with buffers_per_acquisition := Int.fdiv n s.records_per_buffer }) := by
      rw [do_set_averaging, if_neg (by simpa using h)]
    refine ⟨?_, ?_, ?_, ?_⟩
    · rw [hrun]
      simpa using hd
    · intro hf
      rw [hrun] at hf
      simp at hf
    · intro _
      rw [hrun]
    · intro _ hrpb
      rw [hrun]
      obtain ⟨k, rfl⟩ := hd
      simp only [hrpb]
      rw [Int.mul_fdiv_cancel_left k (by norm_num)]
      ring
  · have hnd : ¬ (100 ∣ n) := fun hd => h (hmod.mpr hd)
    have hrun : do_set_averaging n s = (false, s) := by
      rw [do_set_averaging, if_pos (by simpa using h)]
    refine ⟨?_, ?_, ?_, ?_⟩
    · rw [hrun]
      simpa using hnd
    · intro _
      rw [hrun]
    · intro hd
      exact absurd hd hnd
    · intro hd
      exact absurd hd hnd

/-- C6 (witness): 250 is rejected (not a multiple of 100); 200 with
`records_per_buffer = 100` yields `buffers_per_acquisition = 2`. -/
theorem do_set_averaging_spec_witness :
    ((100 : ℤ) ∣ 200 ∧ initATS.records_per_buffer = 100) ∧
    (do_set_averaging 250 initATS).1 = false ∧
    (do_set_averaging 200 initATS).2.buffers_per_acquisition * 100 = 200 :=
  ⟨⟨by norm_num, rfl⟩,
   (do_set_averaging_spec 250 initATS).1.mpr (by norm_num),
   (do_set_averaging_spec 200 initATS).2.2.2 (by norm_num) rfl⟩

/-- C7: for every trigger range in `{5, 2.5, 1}` and every level
strictly inside `±range`, the trigger level code computed by
`set_trigger` equals `round(128 + 127·level/range)`, lies in
`[1, 255]`, and is exactly `128` when the level is `0`. -/
theorem trigger_level_code_spec :
    ∀ (trigger_range trigger_level : ℚ),
      (trigger_range = 5 ∨ trigger_range = 5/2 ∨ trigger_range = 1) →
      -trigger_range < trigger_level → trigger_level < trigger_range →
      trigger_level_code trigger_level trigger_range =
        round (128 + 127 * trigger_level / trigger_range) ∧
      1 ≤ trigger_level_code trigger_level trigger_range ∧
      trigger_level_code trigger_level trigger_range ≤ 255 ∧
      (trigger_level = 0 → trigger_level_code trigger_level trigger_range = 128) := by
  intro r l hr hneg hlt
  have hr0 : 0 < r := by
    rcases hr with h | h | h <;> rw [h] <;> norm_num
  have h1 : l / r < 1 := (div_lt_one hr0).mpr hlt
  have h2 : -1 < l / r := by
    rw [lt_div_iff₀ hr0]
    linarith
  have hrw : 128 + 127 * l / r = 128 + 127 * (l / r) := by
    ring
  have hy1 : 1 < 128 + 127 * l / r := by
    rw [hrw]
    linarith
  have hy2 : 128 + 127 * l / r < 255 := by
    rw [hrw]
    linarith
  have hcode : trigger_level_code l r = ⌊128 + 127 * l / r + 1/2⌋ := by
    unfold trigger_level_code
    rw [pyRound2_of_nonneg (by linarith)]
  refine ⟨by rw [hcode, round_eq], ?_, ?_, ?_⟩
  · rw [hcode]
    exact Int.le_floor.mpr (by push_cast; linarith)
  · rw [hcode]
    have hlt256 : ⌊128 + 127 * l / r + 1/2⌋ < 256 :=
      Int.floor_lt.mpr (by push_cast; linarith)
    omega
  · intro h0
    subst h0
    unfold trigger_level_code
    rw [show (128 : ℚ) + 127 * 0 / r = 128 by ring]
    rw [pyRound2_of_nonneg (by norm_num)]
    norm_num

/-- C7 (witness): range 1 V, level 0.5 V. -/
theorem trigger_level_code_spec_witness :
    ((1 : ℚ) = 5 ∨ (1 : ℚ) = 5/2 ∨ (1 : ℚ) = 1) ∧ -(1 : ℚ) < 1/2 ∧ (1/2 : ℚ) < 1 ∧
    (trigger_level_code (1/2) 1 = round ((128 : ℚ) + 127 * (1/2) / 1) ∧
     1 ≤ trigger_level_code (1/2) 1 ∧
     trigger_level_code (1/2) 1 ≤ 255 ∧
     ((1/2 : ℚ) = 0 → trigger_level_code (1/2) 1 = 128)) :=
  ⟨by norm_num, by norm_num, by norm_num,
   trigger_level_code_spec 1 (1/2) (by norm_num) (by norm_num) (by norm_num)⟩

/-- C8: `do_set_acquisition_time t` raises (state unchanged) iff `t`
does not exceed `256/samplerate*1e3` ns; otherwise it stores
`round(samplerate*t*1e-3)` rounded to the nearest multiple of 128
(always ≥ 128) into `acquired_samples` and recomputes
`acquisition_time = acquired_samples/samplerate*1e3`, which in general
differs from the requested `t` — concretely at 1800 MS/s and
`t = 200000` ns. -/
theorem do_set_acquisition_time_spec :
    ∀ (t : ℚ) (s : ATS), 0 < s.samplerate →
      ((do_set_acquisition_time t s).1 = false ↔ ¬ (256 / s.samplerate * 1000 < t)) ∧
      ((do_set_acquisition_time t s).1 = false → (do_set_acquisition_time t s).2 = s) ∧
      (256 / s.samplerate * 1000 < t →
        (do_set_acquisition_time t s).2.acquired_samples =
          pyRound2 ((pyRound2 (s.samplerate * t * (1/1000)) : ℚ) / 128) * 128 ∧
        (128 : ℤ) ∣ (do_set_acquisition_time t s).2.acquired_samples ∧
        128 ≤ (do_set_acquisition_time t s).2.acquired_samples ∧
        (do_set_acquisition_time t s).2.acquisition_time =
          ((do_set_acquisition_time t s).2.acquired_samples : ℚ) / s.samplerate * 1000) ∧
      ((do_set_acquisition_time 200000 initATS).1 = true ∧
       (do_set_acquisition_time 200000 initATS).2.acquisition_time ≠ 200000) := by
  intro t s hs
  refine ⟨?_, do_set_acquisition_time_false_eq t s, ?_, ?_⟩
  · rw [Bool.eq_false_iff]
    exact not_congr (do_set_acquisition_time_true_iff t s)
  · intro h
    have ht : (do_set_acquisition_time t s).1 = true :=
      (do_set_acquisition_time_true_iff t s).mpr h
    have hacq := do_set_acquisition_time_true_acq t s ht
    have key : 256 < s.samplerate * t * (1/1000) := by
      have h2m : s.samplerate * (256 / s.samplerate * 1000) < s.samplerate * t :=
        mul_lt_mul_of_pos_left h hs
      have heq : s.samplerate * (256 / s.samplerate * 1000) = 256 * 1000 := by
        field_simp
      rw [heq] at h2m
      linarith
    have hq0 : (0 : ℚ) ≤ s.samplerate * t * (1/1000) := by linarith
    have hraw : 256 ≤ pyRound2 (s.samplerate * t * (1/1000)) := by
      rw [pyRound2_of_nonneg hq0]
      exact Int.le_floor.mpr (by push_cast; linarith)
    have hrawQ : (256 : ℚ) ≤ (pyRound2 (s.samplerate * t * (1/1000)) : ℚ) := by
      exact_mod_cast hraw
    have hdivQ : (2 : ℚ) ≤ (pyRound2 (s.samplerate * t * (1/1000)) : ℚ) / 128 := by
      rw [le_div_iff₀ (by norm_num : (0:ℚ) < 128)]
      linarith
    have h2 : 2 ≤ pyRound2 ((pyRound2 (s.samplerate * t * (1/1000)) : ℚ) / 128) := by
      rw [pyRound2_of_nonneg (by linarith)]
      exact Int.le_floor.mpr (by push_cast; linarith)
    refine ⟨hacq, ?_, ?_, do_set_acquisition_time_true_time t s ht⟩
    · rw [hacq]
      exact dvd_mul_left 128 _
    · rw [hacq]
      linarith
  · constructor
    · norm_num [do_set_acquisition_time, initATS]
    · norm_num [do_set_acquisition_time, initATS, pyRound2]

/-- C8 (witness): the specification applied at the spec's own example,
1800 MS/s and a requested time of 200000 ns. -/
theorem do_set_acquisition_time_spec_witness :
    (0 : ℚ) < initATS.samplerate ∧
    ((do_set_acquisition_time 200000 initATS).1 = false ↔
      ¬ (256 / initATS.samplerate * 1000 < 200000)) :=
  ⟨by norm_num [initATS],
   (do_set_acquisition_time_spec 200000 initATS (by norm_num [initATS])).1⟩

/-- Shape of `do_set_samplerate` on an accepted rate: the frame, the
recompute equations, the characterisation of the raising case (the
inner minimum-acquisition-time check fails iff `acquired_samples ≤
256`) and the state it raises in, given the run reduces to the inner
`do_set_acquisition_time` call on the state with the samplerate
already updated. -/
lemma do_set_samplerate_valid_branch (r : ℚ) (s : ATS) (hr0 : 0 < r)
    (hrun : do_set_samplerate r s =
      do_set_acquisition_time ((s.acquired_samples : ℚ) / r * 1000)
        { s with samplerate := r }) :
    ((do_set_samplerate r s).2.clock_source = s.clock_source ∧
     (do_set_samplerate r s).2.clock_edge = s.clock_edge ∧
     (do_set_samplerate r s).2.trigger_range = s.trigger_range ∧
     (do_set_samplerate r s).2.trigger_slope = s.trigger_slope ∧
     (do_set_samplerate r s).2.trigger_level = s.trigger_level ∧
     (do_set_samplerate r s).2.trigger_delay = s.trigger_delay ∧
     (do_set_samplerate r s).2.records_per_buffer = s.records_per_buffer ∧
     (do_set_samplerate r s).2.nb_buffer_allocated = s.nb_buffer_allocated ∧
     (do_set_samplerate r s).2.buffers_per_acquisition = s.buffers_per_acquisition) ∧
    ((do_set_samplerate r s).1 = true →
      (do_set_samplerate r s).2.samplerate = r ∧
      (do_set_samplerate r s).2.acquisition_time =
        ((do_set_samplerate r s).2.acquired_samples : ℚ) / r * 1000) ∧
    ((do_set_samplerate r s).1 = true → (128 : ℤ) ∣ s.acquired_samples →
      (do_set_samplerate r s).2.acquired_samples = s.acquired_samples) ∧
    (((do_set_samplerate r s).1 = false ↔ s.acquired_samples ≤ 256) ∧
     ((do_set_samplerate r s).1 = false →
       (do_set_samplerate r s).2 = { s with samplerate := r })) := by
  rw [hrun]
  set t : ℚ := (s.acquired_samples : ℚ) / r * 1000 with ht
  set s1 : ATS := { s with samplerate := r } with hs1
  obtain ⟨u1, u2, u3, u4, u5, u6, u7, u8, u9, u10⟩ :=
    do_set_acquisition_time_untouched t s1
  refine ⟨⟨u2, u3, u4, u5, u6, u7, u8, u9, u10⟩, ?_, ?_, ?_, ?_⟩
  · intro htrue
    refine ⟨u1, ?_⟩
    have := do_set_acquisition_time_true_time t s1 htrue
    simpa [hs1] using this
  · intro htrue hdvd
    have hacq := do_set_acquisition_time_true_acq t s1 htrue
    have harg : s1.samplerate * t * (1/1000) = (s.acquired_samples : ℚ) := by
      show r * ((s.acquired_samples : ℚ) / r * 1000) * (1/1000) = _
      field_simp
    rw [harg, pyRound2_intCast] at hacq
    obtain ⟨k, hk⟩ := hdvd
    rw [hk] at hacq ⊢
    rw [show ((128 * k : ℤ) : ℚ) / 128 = ((k : ℤ) : ℚ) by push_cast; ring] at hacq
    rw [pyRound2_intCast] at hacq
    rw [hacq]
    ring
  · have hiff := do_set_acquisition_time_true_iff t s1
    have hchar : 256 / s1.samplerate * 1000 < t ↔ 256 < s.acquired_samples := by
      rw [show s1.samplerate = r from rfl, ht,
          mul_lt_mul_right (by norm_num : (0:ℚ) < 1000),
          div_lt_div_iff_of_pos_right hr0]
      norm_cast
    constructor
    · intro hfalse
      have hnot : ¬ (do_set_acquisition_time t s1).1 = true := by
        simp [hfalse]
      rw [hiff, hchar] at hnot
      omega
    · intro hm
      cases hb : (do_set_acquisition_time t s1).1
      · rfl
      · exfalso
        have := hchar.mp (hiff.mp hb)
        omega
  · intro hfalse
    exact do_set_acquisition_time_false_eq t s1 hfalse

/-- Shape of `do_set_samplerate` on a rejected rate or invalid clock
source: the run is `(false, s)`, the frame holds and the success
conjuncts hold vacuously. -/
lemma do_set_samplerate_reject_branch (r : ℚ) (s : ATS)
    (hrun : do_set_samplerate r s = (false, s)) :
    ((do_set_samplerate r s).2.clock_source = s.clock_source ∧
     (do_set_samplerate r s).2.clock_edge = s.clock_edge ∧
     (do_set_samplerate r s).2.trigger_range = s.trigger_range ∧
     (do_set_samplerate r s).2.trigger_slope = s.trigger_slope ∧
     (do_set_samplerate r s).2.trigger_level = s.trigger_level ∧
     (do_set_samplerate r s).2.trigger_delay = s.trigger_delay ∧
     (do_set_samplerate r s).2.records_per_buffer = s.records_per_buffer ∧
     (do_set_samplerate r s).2.nb_buffer_allocated = s.nb_buffer_allocated ∧
     (do_set_samplerate r s).2.buffers_per_acquisition = s.buffers_per_acquisition) ∧
    ((do_set_samplerate r s).1 = true →
      (do_set_samplerate r s).2.samplerate = r ∧
      (do_set_samplerate r s).2.acquisition_time =
        ((do_set_samplerate r s).2.acquired_samples : ℚ) / r * 1000) ∧
    ((do_set_samplerate r s).1 = true → (128 : ℤ) ∣ s.acquired_samples →
      (do_set_samplerate r s).2.acquired_samples = s.acquired_samples) := by
  rw [hrun]
  refine ⟨⟨rfl, rfl, rfl, rfl, rfl, rfl, rfl, rfl, rfl⟩, ?_, ?_⟩
  · intro htrue
    simp at htrue
  · intro htrue
    simp at htrue

/-- C10: the claim states that `do_set_samplerate` either succeeds
(updating `samplerate` and recomputing `acquired_samples` and
`acquisition_time`) or rejects the rate with all three fields
unchanged.  Counterexample: from the reachable state with
`acquired_samples = 256` (external clock, 1800 MS/s), the legal rate
400 is accepted and `self.samplerate` is set to 400, but the inner
`set_acquisition_time(256/400*1e3)` then raises because `640 > 640` is
false — the call raises with `samplerate` already changed, so the state
is mutated although the call did not succeed. -/
theorem do_set_samplerate_raises_after_mutation :
    (do_set_samplerate 400 smallSamplesATS).1 = false ∧
    (do_set_samplerate 400 smallSamplesATS).2.samplerate = 400 ∧
    smallSamplesATS.samplerate = 1800 ∧
    (do_set_samplerate 400 smallSamplesATS).2 ≠ smallSamplesATS := by
  have hne : ("external" : String) ≠ "internal" := by decide
  have hrun : do_set_samplerate 400 smallSamplesATS =
      (false, { smallSamplesATS with samplerate := 400 }) := by
    rw [do_set_samplerate, if_neg (by simp [smallSamplesATS, initATS, hne]),
        if_pos (by simp [smallSamplesATS, initATS]), if_pos (by norm_num)]
    rw [do_set_acquisition_time,
        if_neg (by norm_num [smallSamplesATS, initATS])]
  refine ⟨by rw [hrun], by rw [hrun], rfl, ?_⟩
  intro heq
  have h4 : (do_set_samplerate 400 smallSamplesATS).2.samplerate = 400 := by
    rw [hrun]
  rw [heq] at h4
  norm_num [smallSamplesATS, initATS] at h4

/-- C10 (amended): `do_set_samplerate r` never touches any field other
than `samplerate`, `acquired_samples` and `acquisition_time`.  On
success it sets `samplerate = r` and recomputes `acquisition_time`
from the (unchanged, since it is a multiple of 128) `acquired_samples`
and the new rate.  On every rejected rate — internal clock with `r`
outside the table, external clock with `r` outside `[300, 1800]`, or a
clock source that is neither — the call raises with the whole state
unchanged.  On a legal rate the call raises iff
`acquired_samples ≤ 256` (the recomputed acquisition time fails the
inner minimum check), and then the final state has exactly
`samplerate` updated to `r`. -/
theorem do_set_samplerate_frame_spec :
    ∀ (r : ℚ) (s : ATS),
      ((do_set_samplerate r s).2.clock_source = s.clock_source ∧
       (do_set_samplerate r s).2.clock_edge = s.clock_edge ∧
       (do_set_samplerate r s).2.trigger_range = s.trigger_range ∧
       (do_set_samplerate r s).2.trigger_slope = s.trigger_slope ∧
       (do_set_samplerate r s).2.trigger_level = s.trigger_level ∧
       (do_set_samplerate r s).2.trigger_delay = s.trigger_delay ∧
       (do_set_samplerate r s).2.records_per_buffer = s.records_per_buffer ∧
       (do_set_samplerate r s).2.nb_buffer_allocated = s.nb_buffer_allocated ∧
       (do_set_samplerate r s).2.buffers_per_acquisition = s.buffers_per_acquisition) ∧
      ((do_set_samplerate r s).1 = true →
        (do_set_samplerate r s).2.samplerate = r ∧
        (do_set_samplerate r s).2.acquisition_time =
          ((do_set_samplerate r s).2.acquired_samples : ℚ) / r * 1000) ∧
      ((do_set_samplerate r s).1 = true → (128 : ℤ) ∣ s.acquired_samples →
        (do_set_samplerate r s).2.acquired_samples = s.acquired_samples) ∧
      (s.clock_source = "internal" → r ∉ allow_samplerates_keys →
        do_set_samplerate r s = (false, s)) ∧
      (s.clock_source = "external" → ¬ (300 ≤ r ∧ r ≤ 1800) →
        do_set_samplerate r s = (false, s)) ∧
      (s.clock_source ≠ "internal" → s.clock_source ≠ "external" →
        do_set_samplerate r s = (false, s)) ∧
      (s.clock_source = "internal" → r ∈ allow_samplerates_keys →
        ((do_set_samplerate r s).1 = false ↔ s.acquired_samples ≤ 256) ∧
        ((do_set_samplerate r s).1 = false →
          (do_set_samplerate r s).2 = { s with samplerate := r })) ∧
      (s.clock_source = "external" → 300 ≤ r → r ≤ 1800 →
        ((do_set_samplerate r s).1 = false ↔ s.acquired_samples ≤ 256) ∧
        ((do_set_samplerate r s).1 = false →
          (do_set_samplerate r s).2 = { s with samplerate := r })) := by
  intro r s
  by_cases h1 : s.clock_source = "internal"
  · by_cases h2 : r ∈ allow_samplerates_keys
    · obtain ⟨F, S, A, L⟩ := do_set_samplerate_valid_branch r s
        (allow_samplerates_keys_pos r h2)
        (by rw [do_set_samplerate, if_pos h1, if_pos h2])
      refine ⟨F, S, A, ?_, ?_, ?_, ?_, ?_⟩
      · intro _ hk
        exact absurd h2 hk
      · intro hext _
        rw [h1] at hext
        exact absurd hext (by decide)
      · intro hni _
        exact absurd h1 hni
      · intro _ _
        exact L
      · intro hext _ _
        rw [h1] at hext
        exact absurd hext (by decide)
    · have hrun : do_set_samplerate r s = (false, s) := by
        rw [do_set_samplerate, if_pos h1, if_neg h2]
      obtain ⟨F, S, A⟩ := do_set_samplerate_reject_branch r s hrun
      refine ⟨F, S, A, ?_, ?_, ?_, ?_, ?_⟩
      · intro _ _
        exact hrun
      · intro hext _
        rw [h1] at hext
        exact absurd hext (by decide)
      · intro hni _
        exact absurd h1 hni
      · intro _ hk
        exact absurd hk h2
      · intro hext _ _
        rw [h1] at hext
        exact absurd hext (by decide)
  · by_cases h2 : s.clock_source = "external"
    · by_cases h3 : 300 ≤ r ∧ r ≤ 1800
      · obtain ⟨F, S, A, L⟩ := do_set_samplerate_valid_branch r s
          (by linarith [h3.1])
          (by rw [do_set_samplerate, if_neg h1, if_pos h2, if_pos h3])
        refine ⟨F, S, A, ?_, ?_, ?_, ?_, ?_⟩
        · intro hint _
          exact absurd hint h1
        · intro _ hcon
          exact absurd h3 hcon
        · intro _ hne
          exact absurd h2 hne
        · intro hint _
          exact absurd hint h1
        · intro _ _ _
          exact L
      · have hrun : do_set_samplerate r s = (false, s) := by
          rw [do_set_samplerate, if_neg h1, if_pos h2, if_neg h3]
        obtain ⟨F, S, A⟩ := do_set_samplerate_reject_branch r s hrun
        refine ⟨F, S, A, ?_, ?_, ?_, ?_, ?_⟩
        · intro hint _
          exact absurd hint h1
        · intro _ _
          exact hrun
        · intro _ hne
          exact absurd h2 hne
        · intro hint _
          exact absurd hint h1
        · intro _ ha hb
          exact absurd ⟨ha, hb⟩ h3
    · have hrun : do_set_samplerate r s = (false, s) := by
        rw [do_set_samplerate, if_neg h1, if_neg h2]
      obtain ⟨F, S, A⟩ := do_set_samplerate_reject_branch r s hrun
      refine ⟨F, S, A, ?_, ?_, ?_, ?_, ?_⟩
      · intro hint _
        exact absurd hint h1
      · intro hext _
        exact absurd hext h2
      · intro _ _
        exact hrun
      · intro hint _
        exact absurd hint h1
      · intro hext _ _
        exact absurd hext h2

/-- C10 (witness): the amended theorem's legal-external-rate case at
rate 400 from the state with `acquired_samples = 256`: the call raises
iff the sample count is at most 256, and then leaves the state with
exactly the samplerate updated. -/
theorem do_set_samplerate_frame_spec_witness :
    smallSamplesATS.clock_source = "external" ∧
    (300 : ℚ) ≤ 400 ∧ (400 : ℚ) ≤ 1800 ∧
    (((do_set_samplerate 400 smallSamplesATS).1 = false ↔
        smallSamplesATS.acquired_samples ≤ 256) ∧
     ((do_set_samplerate 400 smallSamplesATS).1 = false →
       (do_set_samplerate 400 smallSamplesATS).2 =
         { smallSamplesATS with samplerate := 400 })) :=
  ⟨rfl, by norm_num, by norm_num,
   (do_set_samplerate_frame_spec 400 smallSamplesATS).2.2.2.2.2.2.2
     rfl (by norm_num) (by norm_num)⟩
